import Mathlib

/-!
Shallow embedding of the `dbcontrol` package: a wrapper over `database/sql`
that limits the number of concurrently active database operations through a
token semaphore (`DB.sem`), and verification of its release protocol.

The underlying `database/sql` driver is an external collaborator: its results
(success / error of each primitive, number of rows a cursor yields, iteration
error flags) enter the model as explicit oracle parameters.  Channel values
are modelled by their presence (`Bool`), durations by `Int` (Go
`time.Duration`), and the token channel by the number of tokens currently
buffered in it.
-/

namespace Dbcontrol

/-- Abstract error values produced by the underlying database driver. -/
abbrev Err := Nat

/-- The token channel created by `Open`: its capacity (`make(chan bool, c)`)
and the number of tokens currently buffered in it. -/
structure Sem where
  cap : Nat
  avail : Nat
  deriving DecidableEq

/-- Embeds the Go struct `DB` (db.go / limit.go): the token channel `sem`
(`none` models a nil channel, i.e. unlimited mode), `maxConns`, presence of
the block-duration channel `blockCh`, the usage timeout duration and presence
of the usage-timeout channel. -/
structure DB where
  sem : Option Sem
  maxConns : Int
  blockCh : Bool
  usageTimeout : Int
  usageTimeoutCh : Bool
  deriving DecidableEq

/-- A release closure as returned by `DB.conn()`: whether invoking it pushes a
token back into `db.sem` (`releaseLock`), and whether it cancels a started
usage-timeout timer (`cancelUsageTimeout`). -/
structure Release where
  returnsToken : Bool
  cancelsTimer : Bool
  deriving DecidableEq

/-- Embeds `var dummyRelease func() = func() {}`. -/
def dummyRelease : Release := ⟨false, false⟩

/-- The effect on the pool state of invoking a release closure: a
token-bearing release performs `db.sem <- true`; otherwise nothing. -/
def applyRelease (db : DB) (r : Release) : DB :=
  if r.returnsToken then
    { db with sem := match db.sem with
        | some s => some { s with avail := s.avail + 1 }
        | none => none }
  else db

/-- What `DB.conn()` returns: the pool state after the semaphore take, the
release closure and whether a usage-timeout timer goroutine was started. -/
structure ConnResult where
  db : DB
  rel : Release
  timerStarted : Bool
  deriving DecidableEq

/-- Embeds `DB.conn()` (sequential semantics): in unlimited mode (`sem` nil)
nothing is acquired; in bounded mode a token is taken from `sem`.  `none`
models the case where the take would block (`<-db.sem` with an empty channel)
and no other goroutine exists to refill it.  A timer is started iff the
usage timeout read under the lock is non-zero. -/
def DB.conn (db : DB) : Option ConnResult :=
  let timer : Bool := db.usageTimeout != 0
  match db.sem with
  | none => some ⟨db, ⟨false, timer⟩, timer⟩
  | some s =>
      if 0 < s.avail then
        some ⟨{ db with sem := some ⟨s.cap, s.avail - 1⟩ }, ⟨true, timer⟩, timer⟩
      else
        none

/-- Whether a call to `DB.conn()` on this state enters the blocking branch of
the `select` (bounded mode with no token immediately available). -/
def connWouldBlock (db : DB) : Bool :=
  match db.sem with
  | none => false
  | some s => s.avail == 0

/-- Whether a call to `DB.conn()` on this state would send a block-duration
report: the send sits in the blocking branch and fires only if `blockCh` is
set when the wait ends. -/
def connBlockReport (db : DB) : Bool :=
  connWouldBlock db && db.blockCh

/-- Whether a call to `DB.conn()` on this state starts a usage-timeout timer
(`if usageTimeout != 0`). -/
def connStartsTimer (db : DB) : Bool :=
  db.usageTimeout != 0

/-- Embeds `SetConcurrency` acting on the package-global `concurrency`
variable: the new global value. -/
def setConcurrency (count : Int) : Int :=
  if 0 < count then count else 0

/-- Embeds `Open` (limit.go), given the value the global `Concurrency()` read
returns at that moment: for `c > 0` a `sem` channel of capacity `c` is
created and filled with `c` tokens and `maxConns` is set to `c`; otherwise
`sem` stays nil and `maxConns` stays zero. -/
def openDB (conc : Int) : DB :=
  if 0 < conc then
    { sem := some ⟨conc.toNat, conc.toNat⟩
      maxConns := conc
      blockCh := false
      usageTimeout := 0
      usageTimeoutCh := false }
  else
    { sem := none
      maxConns := 0
      blockCh := false
      usageTimeout := 0
      usageTimeoutCh := false }

/-- Embeds `DB.SetBlockDurationCh`. -/
def setBlockDurationCh (db : DB) (c : Bool) : DB :=
  { db with blockCh := c }

/-- Embeds `DB.SetUsageTimeout`: stores the channel, and the duration only if
the channel is non-nil, else resets the duration to zero. -/
def setUsageTimeout (db : DB) (c : Bool) (timeout : Int) : DB :=
  { db with usageTimeoutCh := c
            usageTimeout := if c then timeout else 0 }

/-- Number of tokens currently available in the pool (0 for a nil channel). -/
def availOf (db : DB) : Nat :=
  match db.sem with
  | none => 0
  | some s => s.avail

/-- Capacity of the token channel (0 for a nil channel). -/
def capOf (db : DB) : Nat :=
  match db.sem with
  | none => 0
  | some s => s.cap

/-- The underlying `sql.Rows` cursor, abstracted: how many rows remain and
whether iteration terminates with a non-nil `Err()`. -/
structure SqlRows where
  remaining : Nat
  errAtEnd : Bool
  deriving DecidableEq

/-- Embeds the wrapper struct `Rows`: the underlying cursor (`none` models a
nil `*sql.Rows`), the `closed` flag and the captured release closure. -/
structure Rows where
  urows : Option SqlRows
  closed : Bool
  release : Release
  deriving DecidableEq

/-- Result of `DB.Query`: pool state after the call, the returned cursor
(`none` models a nil `*Rows`) and the returned error. -/
structure QueryRes where
  db : DB
  rows : Option Rows
  err : Option Err
  deriving DecidableEq

/-- Embeds `DB.Query`: acquire, run the underlying query (oracle `uq`); on
error release the token and return `(nil, err)`, else hand the release to the
returned cursor. -/
def DB.query (db : DB) (uq : Except Err SqlRows) : Option QueryRes :=
  db.conn.map fun r =>
    match uq with
    | .error e => ⟨applyRelease r.db r.rel, none, some e⟩
    | .ok sq => ⟨r.db, some ⟨some sq, false, r.rel⟩, none⟩

/-- Result of `Rows.Next`. -/
structure NextRes where
  hasNext : Bool
  rows : Rows
  db : DB
  didRelease : Bool
  deriving DecidableEq

/-- Embeds `Rows.Next`: a closed cursor returns false at once; otherwise the
underlying `Next` runs, and on end-of-results with a nil `Err()` the token is
released and the cursor marked closed.  `none` models the nil dereference of
calling the underlying `Next` on a nil `*sql.Rows`. -/
def Rows.next (rows : Rows) (db : DB) : Option NextRes :=
  if rows.closed then some ⟨false, rows, db, false⟩
  else
    match rows.urows with
    | none => none
    | some sq =>
        if 0 < sq.remaining then
          some ⟨true, { rows with urows := some ⟨sq.remaining - 1, sq.errAtEnd⟩ }, db, false⟩
        else if sq.errAtEnd then
          some ⟨false, rows, db, false⟩
        else
          some ⟨false, { rows with closed := true }, applyRelease db rows.release, true⟩

/-- Result of `Rows.Close`. -/
structure CloseRes where
  err : Option Err
  rows : Rows
  db : DB
  didRelease : Bool
  underlyingClosed : Bool
  deriving DecidableEq

/-- Embeds `Rows.Close`: the underlying `Close` always runs (oracle result
`ucloseErr`); the token is released only if the `closed` flag is not yet set.
`none` models the nil dereference on a nil `*sql.Rows`. -/
def Rows.close (rows : Rows) (db : DB) (ucloseErr : Option Err) : Option CloseRes :=
  match rows.urows with
  | none => none
  | some _ =>
      if rows.closed then some ⟨ucloseErr, rows, db, false, true⟩
      else some ⟨ucloseErr, { rows with closed := true }, applyRelease db rows.release, true, true⟩

/-- Embeds the wrapper struct `Row`: the error stored inside the underlying
`sql.Row` (set when the query itself failed), the `closed` flag and the
captured release closure. -/
structure Row where
  queryErr : Option Err
  closed : Bool
  release : Release
  deriving DecidableEq

/-- Embeds `DB.QueryRow`: acquire, run the underlying `QueryRow` (which never
returns an error directly: a query failure is stored inside the row, oracle
`uerr`) and return the wrapped row carrying the release closure. -/
def DB.queryRow (db : DB) (uerr : Option Err) : Option (DB × Row) :=
  db.conn.map fun r => (r.db, ⟨uerr, false, r.rel⟩)

/-- Result of `Row.Scan`. -/
structure ScanRes where
  err : Option Err
  row : Row
  db : DB
  didRelease : Bool
  deriving DecidableEq

/-- Embeds `Row.Scan`: the underlying `Scan` returns the stored query error
if any, else the decode outcome (oracle `uscan`); then, if the `closed` flag
is not yet set, the token is released and the flag set. -/
def Row.scan (row : Row) (db : DB) (uscan : Option Err) : ScanRes :=
  let err := match row.queryErr with
    | some e => some e
    | none => uscan
  if row.closed then ⟨err, row, db, false⟩
  else ⟨err, { row with closed := true }, applyRelease db row.release, true⟩

/-- Embeds the wrapper struct `Stmt`: whether the `db` field is non-nil
(statements prepared through a transaction leave it nil). -/
structure Stmt where
  hasDB : Bool
  deriving DecidableEq

/-- Result of `DB.Prepare`. -/
structure PrepareRes where
  db : DB
  stmt : Option Stmt
  err : Option Err
  acq : Nat
  deriving DecidableEq

/-- Embeds `DB.Prepare`: acquire, run the underlying `Prepare` (oracle
`uerr`), release on return (deferred) either way; a successful prepare yields
a statement with a non-nil `db` field.  `acq` counts `conn()` calls. -/
def DB.prepare (db : DB) (uerr : Option Err) : Option PrepareRes :=
  db.conn.map fun r =>
    let db1 := applyRelease r.db r.rel
    match uerr with
    | some e => ⟨db1, none, some e, 1⟩
    | none => ⟨db1, some ⟨true⟩, none, 1⟩

/-- Result of `Stmt.Exec`. -/
structure ExecRes where
  db : DB
  err : Option Err
  acq : Nat
  deriving DecidableEq

/-- Embeds `Stmt.Exec`: only when the `db` field is non-nil a token is
acquired and released on return (deferred); the underlying `Exec` outcome is
oracle `uerr`. -/
def Stmt.exec (s : Stmt) (db : DB) (uerr : Option Err) : Option ExecRes :=
  if s.hasDB then
    db.conn.map fun r => ⟨applyRelease r.db r.rel, uerr, 1⟩
  else
    some ⟨db, uerr, 0⟩

/-- Result of `Stmt.Query`. -/
structure StmtQueryRes where
  db : DB
  rows : Option Rows
  err : Option Err
  acq : Nat
  deriving DecidableEq

/-- Embeds `Stmt.Query`: with a nil `db` field the release is `dummyRelease`
and no token is acquired; otherwise a token is acquired.  On underlying error
the release is invoked and `(nil, err)` returned, else the release is handed
to the returned cursor. -/
def Stmt.query (s : Stmt) (db : DB) (uq : Except Err SqlRows) : Option StmtQueryRes :=
  if s.hasDB then
    db.conn.map fun r =>
      match uq with
      | .error e => ⟨applyRelease r.db r.rel, none, some e, 1⟩
      | .ok sq => ⟨r.db, some ⟨some sq, false, r.rel⟩, none, 1⟩
  else
    match uq with
    | .error e => some ⟨db, none, some e, 0⟩
    | .ok sq => some ⟨db, some ⟨some sq, false, dummyRelease⟩, none, 0⟩

/-- Embeds `Stmt.QueryRow`: with a nil `db` field the release attached to the
returned row is `dummyRelease` and no token is acquired; otherwise a token is
acquired and its release attached to the row. -/
def Stmt.queryRow (s : Stmt) (db : DB) (uerr : Option Err) : Option (DB × Row × Nat) :=
  if s.hasDB then
    db.conn.map fun r => (r.db, ⟨uerr, false, r.rel⟩, 1)
  else
    some (db, ⟨uerr, false, dummyRelease⟩, 0)

/-- Embeds the wrapper struct `Tx`: the `closed` flag and the release closure
captured at `Begin`. -/
structure Tx where
  closed : Bool
  release : Release
  deriving DecidableEq

/-- Result of `DB.Begin`. -/
structure BeginRes where
  db : DB
  tx : Option Tx
  err : Option Err
  deriving DecidableEq

/-- Embeds `DB.Begin`: acquire, run the underlying `Begin` (oracle `uerr`);
on error release the token and return `(nil, err)`, else hand the release to
the returned transaction. -/
def DB.begin (db : DB) (uerr : Option Err) : Option BeginRes :=
  db.conn.map fun r =>
    match uerr with
    | some e => ⟨applyRelease r.db r.rel, none, some e⟩
    | none => ⟨r.db, some ⟨false, r.rel⟩, none⟩

/-- Result of `Tx.Commit` / `Tx.Rollback`. -/
structure TxEndRes where
  tx : Tx
  db : DB
  err : Option Err
  didRelease : Bool
  underlyingCalled : Bool
  deriving DecidableEq

/-- Embeds `Tx.Commit`: the underlying `Commit` always runs (oracle `uerr`);
the token is released (and the flag set) only if `closed` was not yet set. -/
def Tx.commit (tx : Tx) (db : DB) (uerr : Option Err) : TxEndRes :=
  if tx.closed then ⟨tx, db, uerr, false, true⟩
  else ⟨{ tx with closed := true }, applyRelease db tx.release, uerr, true, true⟩

/-- Embeds `Tx.Rollback`: same shape as `Tx.Commit` over the underlying
`Rollback`. -/
def Tx.rollback (tx : Tx) (db : DB) (uerr : Option Err) : TxEndRes :=
  if tx.closed then ⟨tx, db, uerr, false, true⟩
  else ⟨{ tx with closed := true }, applyRelease db tx.release, uerr, true, true⟩

/-- Embeds `Tx.Prepare`: no `conn()` call; a successful underlying prepare
yields a statement whose `db` field is nil.  The `Nat` counts `conn()`
calls. -/
def Tx.prepare (_tx : Tx) (uerr : Option Err) : Option Stmt × Option Err × Nat :=
  match uerr with
  | some e => (none, some e, 0)
  | none => (some ⟨false⟩, none, 0)

/-- Embeds `Tx.Stmt`: rebinds a statement to the transaction; the returned
statement has a nil `db` field and no `conn()` call happens. -/
def Tx.stmt (_tx : Tx) (_s : Stmt) : Stmt × Nat :=
  (⟨false⟩, 0)

/-- Embeds `Tx.Query`: the underlying query runs (oracle `uq`) and a cursor
shim wrapping its result with `dummyRelease` is returned unconditionally,
alongside the underlying error. -/
def Tx.query (_tx : Tx) (uq : Except Err SqlRows) : Option Rows × Option Err :=
  match uq with
  | .ok sq => (some ⟨some sq, false, dummyRelease⟩, none)
  | .error e => (some ⟨none, false, dummyRelease⟩, some e)

/-- Embeds `Tx.QueryRow`: the returned row shim carries `dummyRelease`. -/
def Tx.queryRow (_tx : Tx) (uerr : Option Err) : Row :=
  ⟨uerr, false, dummyRelease⟩

/-- A pool together with the number of token-bearing release closures handed
out and not yet invoked. -/
structure PoolSt where
  db : DB
  outstanding : Nat
  deriving DecidableEq

/-- One step of pool activity: a successful acquisition, the invocation of a
handed-out release closure (token-bearing closures are single-use, so a
token-bearing invocation requires one to be outstanding), or a
reconfiguration through one of the setters. -/
inductive PoolStep : PoolSt → PoolSt → Prop
  | acquire {s : PoolSt} (r : ConnResult) (h : s.db.conn = some r) :
      PoolStep s ⟨r.db, s.outstanding + (if r.rel.returnsToken then 1 else 0)⟩
  | release {s : PoolSt} (c : Bool) (h : 0 < s.outstanding) :
      PoolStep s ⟨applyRelease s.db ⟨true, c⟩, s.outstanding - 1⟩
  | releaseNoToken {s : PoolSt} (c : Bool) :
      PoolStep s ⟨applyRelease s.db ⟨false, c⟩, s.outstanding⟩
  | setBlock {s : PoolSt} (b : Bool) :
      PoolStep s ⟨setBlockDurationCh s.db b, s.outstanding⟩
  | setTimeout {s : PoolSt} (ch : Bool) (d : Int) :
      PoolStep s ⟨setUsageTimeout s.db ch d, s.outstanding⟩

/-- States reachable from `init` by pool activity. -/
inductive PoolReach (init : PoolSt) : PoolSt → Prop
  | refl : PoolReach init init
  | step {s t : PoolSt} : PoolReach init s → PoolStep s t → PoolReach init t

/-- The invariant of a bounded pool of capacity `n`: available plus
outstanding tokens always total `n`. -/
def BoundedInv (n : Nat) (s : PoolSt) : Prop :=
  ∃ a, s.db.sem = some ⟨n, a⟩ ∧ a + s.outstanding = n

/-- Pool activity that never installs a usage-timeout channel: acquisitions,
release invocations, block-channel changes, and `SetUsageTimeout` calls with
a nil channel. -/
inductive QuietStep : DB → DB → Prop
  | acquire {db : DB} (r : ConnResult) (h : db.conn = some r) : QuietStep db r.db
  | invokeRelease {db : DB} (r : Release) : QuietStep db (applyRelease db r)
  | setBlock {db : DB} (b : Bool) : QuietStep db (setBlockDurationCh db b)
  | disableTimeout {db : DB} (d : Int) : QuietStep db (setUsageTimeout db false d)

/-- States reachable from `init` without installing a usage-timeout
channel. -/
inductive QuietReach (init : DB) : DB → Prop
  | refl : QuietReach init init
  | step {a b : DB} : QuietReach init a → QuietStep a b → QuietReach init b

/-- Iterate `Rows.Next` until it returns false (fuel-bounded), returning the
final cursor and pool state together with the number of token releases the
iteration performed. -/
def drainRows (fuel : Nat) (rows : Rows) (db : DB) : Option (Rows × DB × Nat) :=
  match rows.next db with
  | none => none
  | some res =>
    if res.hasNext then
      match fuel with
      | 0 => none
      | fuel' + 1 =>
        (drainRows fuel' res.rows res.db).map fun t =>
          (t.1, t.2.1, t.2.2 + (if res.didRelease then 1 else 0))
    else
      some (res.rows, res.db, if res.didRelease then 1 else 0)

/-- The two ways a transaction can be ended. -/
inductive TxEnd
  | commitOp
  | rollbackOp
  deriving DecidableEq

/-- Run a sequence of `Commit` / `Rollback` calls on a transaction, counting
how many of them invoked the release closure. -/
def runTxEnds : List TxEnd → Tx → DB → Tx × DB × Nat
  | [], tx, db => (tx, db, 0)
  | op :: rest, tx, db =>
    let r := match op with
      | TxEnd.commitOp => tx.commit db none
      | TxEnd.rollbackOp => tx.rollback db none
    let t := runTxEnds rest r.tx r.db
    (t.1, t.2.1, t.2.2 + (if r.didRelease then 1 else 0))

/-- Process-wide state: the global concurrency setting plus every pool opened
so far. -/
structure World where
  concurrency : Int
  pools : List DB

/-- Embeds a call to package-level `SetConcurrency` on the process state. -/
def World.setConc (w : World) (count : Int) : World :=
  { w with concurrency := setConcurrency count }

/-- Embeds a call to `Open` on the process state: the new pool reads the
global setting at this moment. -/
def World.openPool (w : World) : World × DB :=
  let db := openDB w.concurrency
  ({ w with pools := w.pools ++ [db] }, db)

/-- Exhaustive description of a successful `DB.conn` call: either the pool is
unlimited and nothing changes, or a token is taken from a non-empty
semaphore. -/
theorem conn_cases {db : DB} {r : ConnResult} (h : db.conn = some r) :
    (db.sem = none ∧ r = ⟨db, ⟨false, db.usageTimeout != 0⟩, db.usageTimeout != 0⟩) ∨
    (∃ cp a, db.sem = some ⟨cp, a⟩ ∧ 0 < a ∧
      r = ⟨{ db with sem := some ⟨cp, a - 1⟩ }, ⟨true, db.usageTimeout != 0⟩,
           db.usageTimeout != 0⟩) := by
  unfold DB.conn at h
  cases hs : db.sem with
  | none =>
    rw [hs] at h
    simp only [Option.some.injEq] at h
    exact Or.inl ⟨rfl, h.symm⟩
  | some s =>
    rw [hs] at h
    by_cases ha : 0 < s.avail
    · simp only [ha, if_pos, Option.some.injEq] at h
      exact Or.inr ⟨s.cap, s.avail, rfl, ha, h.symm⟩
    · simp [ha] at h

/-- Invoking the release closure returned by a successful `conn()` restores
the available-token count to its value before the call. -/
theorem conn_release_avail {db : DB} {r : ConnResult} (h : db.conn = some r) :
    availOf (applyRelease r.db r.rel) = availOf db := by
  rcases conn_cases h with ⟨hs, rfl⟩ | ⟨cp, a, hs, ha, rfl⟩
  · simp [applyRelease, availOf, hs]
  · simp [applyRelease, availOf, hs]
    omega

theorem poolStep_boundedInv {n : Nat} {s t : PoolSt} (hst : PoolStep s t)
    (h : BoundedInv n s) : BoundedInv n t := by
  obtain ⟨a, hs, hsum⟩ := h
  cases hst with
  | acquire r hc =>
    rcases conn_cases hc with ⟨hnone, rfl⟩ | ⟨cp, a2, hsem, hpos, rfl⟩
    · rw [hs] at hnone; exact absurd hnone (by simp)
    · rw [hs] at hsem
      simp only [Option.some.injEq, Sem.mk.injEq] at hsem
      obtain ⟨rfl, rfl⟩ := hsem
      refine ⟨a - 1, by simp, ?_⟩
      show a - 1 + (s.outstanding + (if true then 1 else 0)) = n
      simp only [if_true]
      omega
  | release c hpos =>
    refine ⟨a + 1, by simp [applyRelease, hs], ?_⟩
    show a + 1 + (s.outstanding - 1) = n
    omega
  | releaseNoToken c =>
    exact ⟨a, by simp [applyRelease, hs], hsum⟩
  | setBlock b =>
    exact ⟨a, by simp [setBlockDurationCh, hs], hsum⟩
  | setTimeout ch d =>
    exact ⟨a, by simp [setUsageTimeout, hs], hsum⟩

theorem poolReach_boundedInv {c : Int} (hc : 0 < c) {s : PoolSt}
    (h : PoolReach ⟨openDB c, 0⟩ s) : BoundedInv c.toNat s := by
  induction h with
  | refl =>
    refine ⟨c.toNat, by simp [openDB, hc], ?_⟩
    show c.toNat + 0 = c.toNat
    omega
  | step hr hst ih => exact poolStep_boundedInv hst ih

theorem poolStep_sem_none {s t : PoolSt} (hst : PoolStep s t)
    (h : s.db.sem = none) : t.db.sem = none := by
  cases hst with
  | acquire r hc =>
    rcases conn_cases hc with ⟨hnone, rfl⟩ | ⟨cp, a, hsem, hpos, rfl⟩
    · exact h
    · rw [h] at hsem; exact absurd hsem (by simp)
  | release c hpos => simp [applyRelease, h]
  | releaseNoToken c => simp [applyRelease, h]
  | setBlock b => simp [setBlockDurationCh, h]
  | setTimeout ch d => simp [setUsageTimeout, h]

theorem poolReach_sem_none {c : Int} (hc : c ≤ 0) {s : PoolSt}
    (h : PoolReach ⟨openDB c, 0⟩ s) : s.db.sem = none := by
  induction h with
  | refl => simp [openDB, show ¬ 0 < c by omega]
  | step hr hst ih => exact poolStep_sem_none hst ih

theorem quietStep_timeout_zero {a b : DB} (h : QuietStep a b)
    (hz : a.usageTimeout = 0) : b.usageTimeout = 0 := by
  cases h with
  | acquire r hc =>
    rcases conn_cases hc with ⟨_, rfl⟩ | ⟨cp, av, _, _, rfl⟩ <;> simpa using hz
  | invokeRelease r =>
    unfold applyRelease
    split <;> simp [hz]
  | setBlock b => simpa [setBlockDurationCh] using hz
  | disableTimeout d => simp [setUsageTimeout]

theorem drainRows_spec (k : Nat) : ∀ (fuel : Nat), k ≤ fuel →
    ∀ (rel : Release) (d : DB),
    drainRows fuel ⟨some ⟨k, false⟩, false, rel⟩ d =
      some (⟨some ⟨0, false⟩, true, rel⟩, applyRelease d rel, 1) := by
  induction k with
  | zero =>
    intro fuel hfuel rel d
    simp [drainRows, Rows.next]
  | succ k ih =>
    intro fuel hfuel rel d
    cases fuel with
    | zero => omega
    | succ fuel' =>
      have step : Rows.next ⟨some ⟨k + 1, false⟩, false, rel⟩ d =
          some ⟨true, ⟨some ⟨k, false⟩, false, rel⟩, d, false⟩ := by
        simp [Rows.next]
      unfold drainRows
      rw [step]
      simp only [if_true]
      rw [ih fuel' (by omega) rel d]
      simp

theorem runTxEnds_closed (ops : List TxEnd) (tx : Tx) (db : DB)
    (h : tx.closed = true) : runTxEnds ops tx db = (tx, db, 0) := by
  induction ops with
  | nil => rfl
  | cons op rest ih =>
    cases op <;> simp [runTxEnds, Tx.commit, Tx.rollback, h, ih]

/-- Claim C1: for every operation that acquires a token and then calls an
underlying primitive that can fail synchronously (`DB.Query`, `DB.Begin`,
`Stmt.Query`), if the underlying call errors then the acquired token is
returned to the pool before the error is surfaced: the available-token count
after the failed call equals the count before it, and the handle returned is
nil with the error passed through. -/
theorem c1_failed_call_never_leaks_token (db : DB) (e : Err) (s : Stmt) :
    (∀ o : QueryRes, db.query (Except.error e) = some o →
        availOf o.db = availOf db ∧ o.rows = none ∧ o.err = some e) ∧
    (∀ o : BeginRes, db.begin (some e) = some o →
        availOf o.db = availOf db ∧ o.tx = none ∧ o.err = some e) ∧
    (∀ o : StmtQueryRes, s.query db (Except.error e) = some o →
        availOf o.db = availOf db ∧ o.rows = none ∧ o.err = some e) := by
  refine ⟨?_, ?_, ?_⟩
  · intro o ho
    cases hc : db.conn with
    | none => simp [DB.query, hc] at ho
    | some r =>
      simp only [DB.query, hc, Option.map_some', Option.some.injEq] at ho
      subst ho
      exact ⟨conn_release_avail hc, rfl, rfl⟩
  · intro o ho
    cases hc : db.conn with
    | none => simp [DB.begin, hc] at ho
    | some r =>
      simp only [DB.begin, hc, Option.map_some', Option.some.injEq] at ho
      subst ho
      exact ⟨conn_release_avail hc, rfl, rfl⟩
  · intro o ho
    cases s with
    | mk hasDB =>
      cases hasDB with
      | false =>
        simp only [Stmt.query, Bool.false_eq_true, if_false, Option.some.injEq] at ho
        subst ho
        exact ⟨rfl, rfl, rfl⟩
      | true =>
        cases hc : db.conn with
        | none => simp [Stmt.query, hc] at ho
        | some r =>
          simp only [Stmt.query, if_true, hc, Option.map_some', Option.some.injEq] at ho
          subst ho
          exact ⟨conn_release_avail hc, rfl, rfl⟩

/-- Witness for C1 on a capacity-1 pool with a failing query. -/
theorem c1_witness :
    availOf (QueryRes.mk (openDB 1) none (some 0)).db = availOf (openDB 1) ∧
    (QueryRes.mk (openDB 1) none (some 0)).rows = none ∧
    (QueryRes.mk (openDB 1) none (some 0)).err = some 0 :=
  (c1_failed_call_never_leaks_token (openDB 1) 0 ⟨true⟩).1
    ⟨openDB 1, none, some 0⟩ (by decide)

/-- Claim C2: for a pool opened with bounded capacity `c > 0`, in every
reachable state the number of outstanding tokens never exceeds `c`; for a
pool opened with capacity zero or negative, acquisition never blocks in any
reachable state. -/
theorem c2_outstanding_never_exceeds_capacity (c : Int) (s : PoolSt)
    (h : PoolReach ⟨openDB c, 0⟩ s) :
    (0 < c → s.outstanding ≤ c.toNat) ∧
    (c ≤ 0 → connWouldBlock s.db = false ∧ (s.db.conn).isSome = true) := by
  constructor
  · intro hc
    obtain ⟨a, _, hsum⟩ := poolReach_boundedInv hc h
    omega
  · intro hc
    have hn := poolReach_sem_none hc h
    exact ⟨by simp [connWouldBlock, hn], by simp [DB.conn, hn]⟩

/-- Witness for C2: the initial state of a capacity-1 pool, and an unlimited
pool whose acquisition does not block. -/
theorem c2_witness :
    ((0 : Nat) ≤ (1 : Int).toNat) ∧
    (connWouldBlock (openDB 0) = false ∧ ((openDB 0).conn).isSome = true) :=
  ⟨(c2_outstanding_never_exceeds_capacity 1 ⟨openDB 1, 0⟩ PoolReach.refl).1
      (by decide),
   (c2_outstanding_never_exceeds_capacity 0 ⟨openDB 0, 0⟩ PoolReach.refl).2
      (by decide)⟩

/-- Claim C3: a multi-row cursor obtained from a successful query, when
drained to natural end-of-results with no iteration error, releases its token
exactly once inside that final `Next` call (the pool's available count
returns to its pre-query value), and a following `Close` does not release
again (guarded by the `closed` flag) yet still invokes the underlying
cursor's `Close`. -/
theorem c3_drain_then_close_releases_once (db : DB) (k fuel : Nat)
    (hfuel : k ≤ fuel) (uclose : Option Err) (o : QueryRes) (rws : Rows)
    (hq : db.query (Except.ok ⟨k, false⟩) = some o) (hr : o.rows = some rws) :
    ∃ db2,
      drainRows fuel rws o.db = some (⟨some ⟨0, false⟩, true, rws.release⟩, db2, 1) ∧
      availOf db2 = availOf db ∧
      Rows.close ⟨some ⟨0, false⟩, true, rws.release⟩ db2 uclose =
        some ⟨uclose, ⟨some ⟨0, false⟩, true, rws.release⟩, db2, false, true⟩ := by
  cases hc : db.conn with
  | none => simp [DB.query, hc] at hq
  | some r =>
    simp only [DB.query, hc, Option.map_some', Option.some.injEq] at hq
    subst hq
    simp only [Option.some.injEq] at hr
    subst hr
    refine ⟨applyRelease r.db r.rel, ?_, conn_release_avail hc, ?_⟩
    · exact drainRows_spec k fuel hfuel r.rel r.db
    · simp [Rows.close]

/-- Witness for C3: a two-row cursor on a capacity-1 pool, drained then
closed. -/
theorem c3_witness :
    ∃ db2,
      drainRows 2 ⟨some ⟨2, false⟩, false, ⟨true, false⟩⟩
          (DB.mk (some ⟨1, 0⟩) 1 false 0 false) =
        some (⟨some ⟨0, false⟩, true, ⟨true, false⟩⟩, db2, 1) ∧
      availOf db2 = availOf (openDB 1) ∧
      Rows.close ⟨some ⟨0, false⟩, true, ⟨true, false⟩⟩ db2 none =
        some ⟨none, ⟨some ⟨0, false⟩, true, ⟨true, false⟩⟩, db2, false, true⟩ :=
  c3_drain_then_close_releases_once (openDB 1) 2 2 (by decide) none
    ⟨DB.mk (some ⟨1, 0⟩) 1 false 0 false,
      some ⟨some ⟨2, false⟩, false, ⟨true, false⟩⟩, none⟩
    ⟨some ⟨2, false⟩, false, ⟨true, false⟩⟩ (by decide) rfl

/-- Claim C4: a transaction's token is released at the first `Commit` or
`Rollback`, whichever occurs first, and exactly once: over any non-empty
sequence of end calls on a fresh transaction the release closure runs exactly
once, later calls release nothing (the `closed` flag), and every call still
invokes the underlying commit/rollback. -/
theorem c4_tx_release_exactly_once (tx : Tx) (db : DB) (e : Option Err)
    (ops : List TxEnd) :
    ((tx.commit db e).underlyingCalled = true) ∧
    ((tx.rollback db e).underlyingCalled = true) ∧
    (tx.closed = false → ops ≠ [] →
      (runTxEnds ops tx db).2.2 = 1 ∧
      (runTxEnds ops tx db).2.1 = applyRelease db tx.release ∧
      (runTxEnds ops tx db).1.closed = true) ∧
    (tx.closed = true →
      (runTxEnds ops tx db).2.2 = 0 ∧ (runTxEnds ops tx db).2.1 = db) := by
  refine ⟨?_, ?_, ?_, ?_⟩
  · unfold Tx.commit; split <;> rfl
  · unfold Tx.rollback; split <;> rfl
  · intro hcl hne
    cases ops with
    | nil => exact absurd rfl hne
    | cons op rest =>
      cases op <;>
        simp [runTxEnds, Tx.commit, Tx.rollback, hcl, runTxEnds_closed]
  · intro hcl
    simp [runTxEnds_closed ops tx db hcl]

/-- Witness for C4: commit then rollback on a fresh transaction releases
exactly once. -/
theorem c4_witness :
    (runTxEnds [TxEnd.commitOp, TxEnd.rollbackOp] ⟨false, ⟨true, false⟩⟩
      (DB.mk (some ⟨1, 0⟩) 1 false 0 false)).2.2 = 1 ∧
    (runTxEnds [TxEnd.commitOp, TxEnd.rollbackOp] ⟨false, ⟨true, false⟩⟩
      (DB.mk (some ⟨1, 0⟩) 1 false 0 false)).2.1 =
        applyRelease (DB.mk (some ⟨1, 0⟩) 1 false 0 false) ⟨true, false⟩ ∧
    (runTxEnds [TxEnd.commitOp, TxEnd.rollbackOp] ⟨false, ⟨true, false⟩⟩
      (DB.mk (some ⟨1, 0⟩) 1 false 0 false)).1.closed = true :=
  (c4_tx_release_exactly_once ⟨false, ⟨true, false⟩⟩
    (DB.mk (some ⟨1, 0⟩) 1 false 0 false) none
    [TxEnd.commitOp, TxEnd.rollbackOp]).2.2.1 rfl (by decide)

/-- Claim C5: statements prepared through a transaction (`Tx.Prepare`,
`Tx.Stmt`) carry a nil `db` field, and on such statements `Exec`, `Query`
and `QueryRow` perform no token acquisition of their own (attaching
`dummyRelease`), whereas a statement prepared directly on the pool carries a
non-nil `db` field and acquires (and releases) a token per invocation. -/
theorem c5_tx_statements_never_acquire (tx : Tx) (db : DB)
    (ue : Option Err) (uq : Except Err SqlRows) (st : Stmt) :
    (∀ s, (tx.prepare ue).1 = some s → s.hasDB = false) ∧
    ((tx.stmt st).1.hasDB = false ∧ (tx.stmt st).2 = 0) ∧
    (∀ s : Stmt, s.hasDB = false →
      s.exec db ue = some ⟨db, ue, 0⟩ ∧
      (∀ o, s.query db uq = some o → o.acq = 0 ∧ o.db = db ∧
        (∀ rws, o.rows = some rws → rws.release = dummyRelease)) ∧
      s.queryRow db ue = some (db, ⟨ue, false, dummyRelease⟩, 0)) ∧
    (∀ o s2, db.prepare ue = some o → o.stmt = some s2 → s2.hasDB = true) ∧
    (∀ s : Stmt, s.hasDB = true →
      (∀ o, s.exec db ue = some o → o.acq = 1 ∧ availOf o.db = availOf db) ∧
      (∀ o, s.query db uq = some o → o.acq = 1) ∧
      (∀ o, s.queryRow db ue = some o → o.2.2 = 1)) := by
  refine ⟨?_, ⟨rfl, rfl⟩, ?_, ?_, ?_⟩
  · intro s hs
    cases ue <;> simp [Tx.prepare] at hs
    exact hs ▸ rfl
  · intro s hs
    refine ⟨?_, ?_, ?_⟩
    · simp [Stmt.exec, hs]
    · intro o ho
      cases uq with
      | error e =>
        simp only [Stmt.query, hs, Bool.false_eq_true, if_false,
          Option.some.injEq] at ho
        subst ho
        exact ⟨rfl, rfl, by intro rws h; simp at h⟩
      | ok sq =>
        simp only [Stmt.query, hs, Bool.false_eq_true, if_false,
          Option.some.injEq] at ho
        subst ho
        refine ⟨rfl, rfl, ?_⟩
        intro rws h
        simp only [Option.some.injEq] at h
        subst h
        rfl
    · simp [Stmt.queryRow, hs]
  · intro o s2 ho hstmt
    cases hc : db.conn with
    | none => simp [DB.prepare, hc] at ho
    | some r =>
      simp only [DB.prepare, hc, Option.map_some', Option.some.injEq] at ho
      subst ho
      cases ue <;> simp at hstmt
      exact hstmt ▸ rfl
  · intro s hs
    refine ⟨?_, ?_, ?_⟩
    · intro o ho
      cases hc : db.conn with
      | none => simp [Stmt.exec, hs, hc] at ho
      | some r =>
        simp only [Stmt.exec, hs, if_true, hc, Option.map_some',
          Option.some.injEq] at ho
        subst ho
        exact ⟨rfl, conn_release_avail hc⟩
    · intro o ho
      cases hc : db.conn with
      | none => simp [Stmt.query, hs, hc] at ho
      | some r =>
        simp only [Stmt.query, hs, if_true, hc, Option.map_some',
          Option.some.injEq] at ho
        cases uq <;> (subst ho; rfl)
    · intro o ho
      cases hc : db.conn with
      | none => simp [Stmt.queryRow, hs, hc] at ho
      | some r =>
        simp only [Stmt.queryRow, hs, if_true, hc, Option.map_some',
          Option.some.injEq] at ho
        subst ho
        rfl

/-- Witness for C5: a transaction-derived statement leaves the pool untouched
on `Exec` and attaches `dummyRelease` on `QueryRow`. -/
theorem c5_witness :
    Stmt.exec ⟨false⟩ (openDB 1) none = some ⟨openDB 1, none, 0⟩ ∧
    Stmt.queryRow ⟨false⟩ (openDB 1) none =
      some (openDB 1, ⟨none, false, dummyRelease⟩, 0) :=
  ⟨((c5_tx_statements_never_acquire ⟨false, dummyRelease⟩ (openDB 1) none
      (Except.error 0) ⟨false⟩).2.2.1 ⟨false⟩ rfl).1,
   ((c5_tx_statements_never_acquire ⟨false, dummyRelease⟩ (openDB 1) none
      (Except.error 0) ⟨false⟩).2.2.1 ⟨false⟩ rfl).2.2⟩

/-- Claim C6: on a pool created in unlimited mode (concurrency zero or
negative), in every reachable state `conn()` succeeds immediately with a
release that bears no token and leaves the pool state unchanged; acquisition
never enters the blocking branch and no block-duration report is ever
sent. -/
theorem c6_unlimited_acquire_noop (c : Int) (hc : c ≤ 0) (s : PoolSt)
    (h : PoolReach ⟨openDB c, 0⟩ s) :
    ∃ r, s.db.conn = some r ∧
      connWouldBlock s.db = false ∧
      connBlockReport s.db = false ∧
      r.rel.returnsToken = false ∧
      r.db = s.db ∧
      applyRelease r.db r.rel = r.db := by
  have hn := poolReach_sem_none hc h
  refine ⟨⟨s.db, ⟨false, s.db.usageTimeout != 0⟩, s.db.usageTimeout != 0⟩,
    ?_, ?_, ?_, rfl, rfl, ?_⟩
  · simp [DB.conn, hn]
  · simp [connWouldBlock, hn]
  · simp [connBlockReport, connWouldBlock, hn]
  · simp [applyRelease]

/-- Witness for C6 at an unlimited pool's initial state. -/
theorem c6_witness :
    ∃ r, (openDB 0).conn = some r ∧
      connWouldBlock (openDB 0) = false ∧
      connBlockReport (openDB 0) = false ∧
      r.rel.returnsToken = false ∧
      r.db = openDB 0 ∧
      applyRelease r.db r.rel = r.db :=
  c6_unlimited_acquire_noop 0 (by decide) ⟨openDB 0, 0⟩ PoolReach.refl

/-- Claim C7, as stated, is false: after `DB.QueryRow` on a capacity-1 pool
whose underlying query failed (the row stores error 0), the token is still
held (0 tokens available, versus 1 before the call), so it is not released
immediately upon the query failure. -/
theorem c7_counterexample :
    ((openDB 1).queryRow (some 0)).map (fun p => availOf p.1) = some 0 ∧
    availOf (openDB 1) = 1 ∧
    ¬ ((openDB 1).queryRow (some 0)).map (fun p => availOf p.1) =
        some (availOf (openDB 1)) := by
  refine ⟨?_, rfl, ?_⟩ <;> decide

/-- Claim C7 as amended: the single-row cursor's token is released at the
first `Scan` call regardless of its outcome, and at most once (a later `Scan`
does not release again); if the underlying query failed, a dead-end row
carrying the error is still returned, and its token too is released at that
first `Scan` (not before). -/
theorem c7_scan_releases_once (db : DB) (uerr uscan uscan2 : Option Err)
    (o : DB × Row) (h : db.queryRow uerr = some o) :
    o.2.queryErr = uerr ∧ o.2.closed = false ∧
    (o.2.scan o.1 uscan).didRelease = true ∧
    (o.2.scan o.1 uscan).err =
      (match uerr with | some e => some e | none => uscan) ∧
    availOf (o.2.scan o.1 uscan).db = availOf db ∧
    ((o.2.scan o.1 uscan).row.scan (o.2.scan o.1 uscan).db uscan2).didRelease
      = false ∧
    ((o.2.scan o.1 uscan).row.scan (o.2.scan o.1 uscan).db uscan2).db
      = (o.2.scan o.1 uscan).db := by
  cases hc : db.conn with
  | none => simp [DB.queryRow, hc] at h
  | some r =>
    simp only [DB.queryRow, hc, Option.map_some', Option.some.injEq] at h
    subst h
    refine ⟨rfl, rfl, by simp [Row.scan], by cases uerr <;> simp [Row.scan], ?_,
      by simp [Row.scan], by simp [Row.scan]⟩
    simpa [Row.scan] using conn_release_avail hc

/-- Witness for the amended C7: scanning the dead-end row of a failed query
on a capacity-1 pool releases the token. -/
theorem c7_witness :
    ((Row.mk (some 0) false (Release.mk true false)).scan
        (DB.mk (some ⟨1, 0⟩) 1 false 0 false) none).didRelease = true ∧
    availOf (((Row.mk (some 0) false (Release.mk true false)).scan
        (DB.mk (some ⟨1, 0⟩) 1 false 0 false) none).db) = availOf (openDB 1) := by
  have h := c7_scan_releases_once (openDB 1) (some 0) none none
    (DB.mk (some ⟨1, 0⟩) 1 false 0 false, Row.mk (some 0) false (Release.mk true false))
    (by decide)
  exact ⟨h.2.2.1, h.2.2.2.2.1⟩

/-- Claim C8: a `SetConcurrency` call leaves every already-open pool exactly
as it was (the pools list is untouched, element by element); only a pool
opened afterwards observes the new setting (its semaphore capacity and
`maxConns` come from the new value). -/
theorem c8_setter_leaves_open_pools_unchanged (w : World) (count : Int) (i : Nat) :
    (w.setConc count).pools = w.pools ∧
    (w.setConc count).pools[i]? = w.pools[i]? ∧
    ((w.setConc count).openPool.2 = openDB (setConcurrency count)) ∧
    (0 < count →
      (w.setConc count).openPool.2.sem = some ⟨count.toNat, count.toNat⟩ ∧
      (w.setConc count).openPool.2.maxConns = count) := by
  refine ⟨rfl, rfl, rfl, ?_⟩
  intro hc
  constructor <;>
    simp [World.openPool, World.setConc, setConcurrency, openDB, hc]

/-- Witness for C8: setting concurrency to 3 in a world holding a capacity-5
pool gives the next-opened pool capacity 3. -/
theorem c8_witness :
    ((World.mk 5 [openDB 5]).setConc 3).openPool.2.sem = some ⟨3, 3⟩ ∧
    ((World.mk 5 [openDB 5]).setConc 3).openPool.2.maxConns = 3 :=
  (c8_setter_leaves_open_pools_unchanged (World.mk 5 [openDB 5]) 3 0).2.2.2
    (by decide)

/-- Claim C9: `SetUsageTimeout` with a nil channel resets the stored duration
to zero regardless of the duration argument, and from then on (through any
activity that does not install a non-nil channel) no `conn()` call starts a
usage-timeout timer. -/
theorem c9_nil_channel_resets_and_stops_timers (db : DB) (d : Int) (db2 : DB)
    (h : QuietReach (setUsageTimeout db false d) db2) :
    (setUsageTimeout db false d).usageTimeout = 0 ∧
    (setUsageTimeout db false d).usageTimeoutCh = false ∧
    db2.usageTimeout = 0 ∧
    connStartsTimer db2 = false ∧
    (∀ r, db2.conn = some r → r.timerStarted = false) := by
  have h0 : (setUsageTimeout db false d).usageTimeout = 0 := by
    simp [setUsageTimeout]
  have hz : db2.usageTimeout = 0 := by
    induction h with
    | refl => exact h0
    | step hr hst ih => exact quietStep_timeout_zero hst ih
  refine ⟨h0, by simp [setUsageTimeout], hz, by simp [connStartsTimer, hz], ?_⟩
  intro r hr
  rcases conn_cases hr with ⟨_, rfl⟩ | ⟨cp, a, _, _, rfl⟩ <;> simp [hz]

/-- Witness for C9: disabling the channel with a non-zero duration argument
still stores zero and stops timers. -/
theorem c9_witness :
    (setUsageTimeout (openDB 0) false 5).usageTimeout = 0 ∧
    connStartsTimer (setUsageTimeout (openDB 0) false 5) = false :=
  ⟨(c9_nil_channel_resets_and_stops_timers (openDB 0) 5
      (setUsageTimeout (openDB 0) false 5) QuietReach.refl).1,
   (c9_nil_channel_resets_and_stops_timers (openDB 0) 5
      (setUsageTimeout (openDB 0) false 5) QuietReach.refl).2.2.2.1⟩

/-- Claim C10: `Tx.Query` returns a non-nil cursor shim wrapping the
underlying result with a no-op release even when the underlying query fails,
passing the error through unchanged, whereas `DB.Query` returns a nil cursor
on error. -/
theorem c10_tx_query_nonnil_shim (tx : Tx) (db : DB) (e : Err) (sq : SqlRows) :
    tx.query (Except.error e) = (some ⟨none, false, dummyRelease⟩, some e) ∧
    tx.query (Except.ok sq) = (some ⟨some sq, false, dummyRelease⟩, none) ∧
    (∀ uq : Except Err SqlRows, ((tx.query uq).1).isSome = true) ∧
    (∀ o : QueryRes, db.query (Except.error e) = some o →
      o.rows = none ∧ o.err = some e) := by
  refine ⟨rfl, rfl, ?_, ?_⟩
  · intro uq; cases uq <;> rfl
  · intro o ho
    cases hc : db.conn with
    | none => simp [DB.query, hc] at ho
    | some r =>
      simp only [DB.query, hc, Option.map_some', Option.some.injEq] at ho
      subst ho
      exact ⟨rfl, rfl⟩

/-- Witness for C10: a failed `DB.Query` on a capacity-1 pool returns a nil
cursor with the error. -/
theorem c10_witness :
    (QueryRes.mk (openDB 1) none (some 3)).rows = none ∧
    (QueryRes.mk (openDB 1) none (some 3)).err = some 3 :=
  (c10_tx_query_nonnil_shim ⟨false, dummyRelease⟩ (openDB 1) 3 ⟨0, false⟩).2.2.2
    ⟨openDB 1, none, some 3⟩ (by decide)

end Dbcontrol
